import Mathlib

set_option maxHeartbeats 1000000

namespace HeadCrab

/-! Shallow embedding of the HEAD-CRAB Process Supervision, Health Aggregation,
and Replicated Persistence subsystem: the `RedundancyManager` class of
`redundancy-manager.js` and the `PersistenceGuarantee` class (with the embedded
`HeadCrabWatchdog`) of `persistence-guarantee.js`.

JavaScript `Map`s and plain objects are modelled as insertion-ordered
association lists (`Map.set` updates an existing key in place, otherwise
appends; `Map.delete` removes). JavaScript numbers that matter here are either
machine timestamps (modelled as `Nat`) or the one floating-point expression
`averageUptime`, modelled by `JSNum` with an explicit `nan` so that `0 / 0`
behaves as in JavaScript. The filesystem is a parameter `FS`: `read` returns
`some` content or `none` (a throwing `fs.readFile`), `writable` says whether
`fs.writeFile` succeeds. -/

/-- JavaScript `Map.get` / object property read on an association list. -/
def objGet {κ α : Type} [DecidableEq κ] : List (κ × α) → κ → Option α
  | [], _ => none
  | p :: rest, k => if p.1 = k then some p.2 else objGet rest k

/-- Whether a key is present. -/
def objHas {κ α : Type} [DecidableEq κ] (m : List (κ × α)) (k : κ) : Bool :=
  (objGet m k).isSome

/-- JavaScript `Map.set` / object property write: update in place when the key
exists, otherwise append, preserving insertion order. -/
def objSet {κ α : Type} [DecidableEq κ] (m : List (κ × α)) (k : κ) (v : α) :
    List (κ × α) :=
  if objHas m k then m.map (fun p => if p.1 = k then (k, v) else p)
  else m ++ [(k, v)]

/-- JavaScript `Map.delete`. -/
def objDelete {κ α : Type} [DecidableEq κ] (m : List (κ × α)) (k : κ) :
    List (κ × α) :=
  m.filter (fun p => p.1 ≠ k)

/-- A JavaScript number as needed by `getRedundancyStatus`: a finite value,
`NaN`, or a signed infinity. -/
inductive JSNum where
  | num : ℚ → JSNum
  | nan : JSNum
  | posInf : JSNum
  | negInf : JSNum
deriving DecidableEq, Repr

/-- JavaScript division: `0 / 0 = NaN`, `x / 0 = ±Infinity` for finite
nonzero `x`, `NaN` is absorbing. -/
def jsDiv : JSNum → JSNum → JSNum
  | .nan, _ => .nan
  | _, .nan => .nan
  | .num a, .num b =>
      if b = 0 then
        if a = 0 then .nan else if 0 < a then .posInf else .negInf
      else .num (a / b)
  | .posInf, .num b => if 0 ≤ b then .posInf else .negInf
  | .negInf, .num b => if 0 ≤ b then .negInf else .posInf
  | .posInf, .posInf => .nan
  | .posInf, .negInf => .nan
  | .negInf, .posInf => .nan
  | .negInf, .negInf => .nan
  | .num _, .posInf => .num 0
  | .num _, .negInf => .num 0

/-! Filesystem model shared by the replication service and the checksum
registry. -/

/-- `path.join` as used on the site roots and artifact names. -/
def pjoin (a b : String) : String := a ++ "/" ++ b

/-- The filesystem environment a pass runs against. -/
structure FS where
  read : String → Option String
  writable : String → Bool

/-- `fs.readFile`: throws (`error`) when the file is unreadable. -/
def fsRead (fs : FS) (p : String) : Except Unit String :=
  match fs.read p with
  | some d => .ok d
  | none => .error ()

/-- `fs.writeFile`: throws (`error`) when the destination is unwritable. -/
def fsWrite (fs : FS) (p : String) (_data : String) : Except Unit Unit :=
  if fs.writable p then .ok () else .error ()

/-! The `RedundancyManager` data model (`redundancy-manager.js`). -/

/-- One entry of `this.workers`: the record stored by `forkWorker`.
`isDead` models what `worker.isDead()` returns for this handle. -/
structure WorkerInfo where
  id : String
  restartCount : Nat
  startTime : Nat
  isDead : Bool
deriving DecidableEq, Repr

/-- One entry of `this.healthChecks`, built each health tick. -/
structure Health where
  pid : Nat
  id : String
  uptime : Nat
  restarts : Nat
  status : String
deriving DecidableEq, Repr

/-- `this.config` of the `RedundancyManager` constructor. -/
structure Config where
  maxWorkers : Nat
  healthCheckInterval : Nat
  restartDelay : Nat
  maxRestartAttempts : Nat
  replicationSites : List String
deriving DecidableEq, Repr

/-- The constructor's configuration literal; `cpus` is `os.cpus().length`. -/
def defaultConfig (cpus : Nat) : Config :=
  { maxWorkers := min cpus 8
    healthCheckInterval := 5000
    restartDelay := 2000
    maxRestartAttempts := 5
    replicationSites :=
      ["/Volumes/Macintosh HD/usr/local/head-crab",
       "/tmp/head-crab-backup",
       "~/.head-crab/backup"] }

/-- The mutable state of a `RedundancyManager` instance: `this.workers`
(keyed by `worker.process.pid`), `this.healthChecks` (keyed by worker id),
and `this.failoverQueue`. -/
structure RMState where
  workers : List (Nat × WorkerInfo)
  healthChecks : List (String × Health)
  failoverQueue : List String
deriving DecidableEq, Repr

/-- The empty constructor state. -/
def initialState : RMState :=
  { workers := [], healthChecks := [], failoverQueue := [] }

/-- `forkWorker(id)`: registers a fresh record (restartCount 0) under the new
process's pid. `pid` and `now` stand for `worker.process.pid` and
`Date.now()`. -/
def forkWorker (s : RMState) (pid : Nat) (id : String) (now : Nat) : RMState :=
  let rec0 : WorkerInfo :=
    { id := id, restartCount := 0, startTime := now, isDead := false }
  { s with workers := objSet s.workers pid rec0 }

/-- `handleWorkerFailure(worker)`: looks up and removes the retiring record;
if its `restartCount >= maxRestartAttempts` the id goes to the failover queue
and nothing is scheduled (`none`); otherwise a restart is scheduled after
`restartDelay`, returned as `some (delay, retiringRecord)` for the pending
`setTimeout` callback. -/
def handleWorkerFailure (cfg : Config) (s : RMState) (pid : Nat) :
    RMState × Option (Nat × WorkerInfo) :=
  match objGet s.workers pid with
  | none => (s, none)
  | some info =>
    let s1 : RMState := { s with workers := objDelete s.workers pid }
    if info.restartCount ≥ cfg.maxRestartAttempts then
      ({ s1 with failoverQueue := s1.failoverQueue ++ [info.id] }, none)
    else
      (s1, some (cfg.restartDelay, info))

/-- The body of the `setTimeout` callback in `handleWorkerFailure`: call
`forkWorker(workerInfo.id)` and then set the new record's
`restartCount = workerInfo.restartCount + 1`. `newPid` is the fresh
process's pid, `now` the spawn time. -/
def fireRestart (s : RMState) (retiring : WorkerInfo) (newPid now : Nat) :
    RMState :=
  let s1 := forkWorker s newPid retiring.id now
  let bumped : WorkerInfo :=
    { id := retiring.id, restartCount := retiring.restartCount + 1,
      startTime := now, isDead := false }
  { s1 with workers := objSet s1.workers newPid bumped }

/-- `increaseRedundancy()`: spawn one `backup-${Date.now()}` worker only when
the current pool size is below `maxWorkers`. -/
def increaseRedundancy (cfg : Config) (s : RMState) (pid now : Nat) : RMState :=
  if s.workers.length < cfg.maxWorkers then
    forkWorker s pid ("backup-" ++ toString now) now
  else s

/-- The `HealthSnapshot` built for one worker on a health tick. -/
def healthOf (now pid : Nat) (info : WorkerInfo) : Health :=
  { pid := pid, id := info.id, uptime := now - info.startTime,
    restarts := info.restartCount,
    status := if info.isDead then "dead" else "alive" }

/-- The first half of a health tick: overwrite `this.healthChecks[info.id]`
for every currently active worker, in map iteration (insertion) order.
Entries of retired workers are left in place. -/
def updateSnapshots (workers : List (Nat × WorkerInfo))
    (hc : List (String × Health)) (now : Nat) : List (String × Health) :=
  workers.foldl (fun acc p => objSet acc p.2.id (healthOf now p.1 p.2)) hc

/-- `aliveCount` as aggregated on a tick and in `getRedundancyStatus`:
snapshots with `status === 'alive'`, over the whole `healthChecks` map. -/
def aliveCount (hc : List (String × Health)) : Nat :=
  (hc.filter (fun h => h.2.status = "alive")).length

/-- One iteration of the `startHealthMonitoring` interval: refresh snapshots,
then call `increaseRedundancy()` exactly when the aggregated `aliveCount`
is below 2. The second component counts the `increaseRedundancy()` requests
issued on this tick. -/
def healthTick (cfg : Config) (s : RMState) (now pid : Nat) : RMState × Nat :=
  let hc := updateSnapshots s.workers s.healthChecks now
  let s1 : RMState := { s with healthChecks := hc }
  if aliveCount hc < 2 then (increaseRedundancy cfg s1 pid now, 1)
  else (s1, 0)

/-- The pure alive-count classification underlying
`calculateRedundancyLevel`. -/
def classifyAlive (aliveWorkers : Nat) : String :=
  if aliveWorkers ≥ 3 then "HIGH"
  else if aliveWorkers ≥ 2 then "MEDIUM"
  else if aliveWorkers ≥ 1 then "LOW"
  else "CRITICAL"

/-- `calculateRedundancyLevel()`: recomputes the alive count from
`this.healthChecks` and classifies it. -/
def calculateRedundancyLevel (s : RMState) : String :=
  classifyAlive (aliveCount s.healthChecks)

/-- The record returned by `getRedundancyStatus()`. -/
structure RedundancyStatus where
  totalWorkers : Nat
  aliveWorkers : Nat
  failedWorkers : Nat
  averageUptime : JSNum
  replicationSites : Nat
  redundancyLevel : String
deriving DecidableEq, Repr

/-- `getRedundancyStatus()`: `averageUptime` is
`reduce(..)/workers.length/1000` with no guard for an empty pool, so it is
evaluated with JavaScript division. -/
def getRedundancyStatus (cfg : Config) (s : RMState) (now : Nat) :
    RedundancyStatus :=
  let ws := s.workers.map (fun p => p.2)
  { totalWorkers := ws.length
    aliveWorkers := (s.healthChecks.filter
      (fun h => h.2.status = "alive")).length
    failedWorkers := s.failoverQueue.length
    averageUptime :=
      jsDiv (jsDiv (JSNum.num (ws.foldl
          (fun acc w => acc + ((now : ℚ) - (w.startTime : ℚ))) 0))
        (JSNum.num (ws.length : ℚ))) (JSNum.num 1000)
    replicationSites := cfg.replicationSites.length
    redundancyLevel := calculateRedundancyLevel s }

/-! The replication service (`RedundancyManager.replicateData`). -/

/-- The `criticalFiles` literal inside `replicateData`. -/
def replicationCriticalFiles : List String :=
  ["memory-indexer.js", "github-oauth-client.js", "rate-limiter.js",
   ".env", "workflow-control.json"]

/-- The site-level log line emitted after each backup site's pass. -/
inductive RepLog where
  | replicatedOk (site : String)
  | replicationFailed (site : String)
deriving DecidableEq, Repr

/-- The body of the inner `try` for one artifact: read at the primary, write
at the backup. Either step may throw. -/
def copyArtifact (fs : FS) (src dst : String) : Except Unit Unit := do
  let d ← fsRead fs src
  fsWrite fs dst d

/-- The inner `try { ... } catch (e) { }`: a per-artifact failure is swallowed.
Returns whether the copy (read and write) actually happened. -/
def copyArtifactCaught (fs : FS) (src dst : String) : Bool :=
  match copyArtifact fs src dst with
  | .ok _ => true
  | .error _ => false

/-- The body of the outer `try` for one backup site: the artifact loop, each
iteration a caught copy. The `Except` layer is the exception channel the
outer `catch` would observe; the value collects the artifacts successfully
copied, in manifest order. -/
def replicateSiteBody (fs : FS) (primary site : String) (files : List String) :
    Except Unit (List String) :=
  files.foldlM
    (fun acc f =>
      Except.ok
        (if copyArtifactCaught fs (pjoin primary f) (pjoin site f) then
          acc ++ [f]
        else acc))
    []

/-- One backup site's pass: run the outer `try`; its `catch` turns an
exception into the failure log line, otherwise the success line is logged. -/
def replicateSite (fs : FS) (primary site : String) (files : List String) :
    RepLog × List String :=
  match replicateSiteBody fs primary site files with
  | .ok copied => (.replicatedOk site, copied)
  | .error _ => (.replicationFailed site, [])

/-- `replicateData()`: sites index 1..N are visited in order against the
primary at index 0. Returns the site-level log lines in order and the
`(site, artifact)` writes performed. -/
def replicateData (fs : FS) (sites files : List String) :
    List RepLog × List (String × String) :=
  match sites with
  | [] => ([], [])
  | primary :: backups =>
    backups.foldl
      (fun acc site =>
        let r := replicateSite fs primary site files
        (acc.1 ++ [r.1], acc.2 ++ r.2.map (fun f => (site, f))))
      ([], [])

/-! The checksum registry (`PersistenceGuarantee.createChecksumRegistry`). -/

/-- `this.persistenceLocations` of the `PersistenceGuarantee` constructor. -/
def persistenceLocations : List String :=
  ["/Volumes/Macintosh HD/usr/local/head-crab",
   "/System/Library/Extensions/.head-crab",
   "/Library/Application Support/.head-crab",
   "/Users/headcrab-admin/.head-crab",
   "/private/var/db/.head-crab",
   "/usr/local/share/.head-crab",
   "/opt/head-crab"]

/-- `this.criticalFiles` of the `PersistenceGuarantee` constructor. -/
def pgCriticalFiles : List String :=
  ["head-crab-boot.js", "auto-setup-post-reboot.js", "redundancy-manager.js",
   "memory-indexer.js", "github-oauth-client.js", "rate-limiter.js",
   "github-cache.js", "com.headcrab.daemon.plist", ".env"]

/-- The body of the `try` in `calculateChecksum`: read the file and hash its
content. `hash` abstracts `crypto.createHash('sha256')...digest('hex')`. -/
def calculateChecksumBody (hash : String → String) (fs : FS) (p : String) :
    Except Unit String := do
  let d ← fsRead fs p
  Except.ok (hash d)

/-- `calculateChecksum(filePath)`: the `catch` maps any read failure to the
absent sentinel (`null` in the source, `none` here); it never raises. -/
def calculateChecksum (hash : String → String) (fs : FS) (p : String) :
    Option String :=
  match calculateChecksumBody hash fs p with
  | .ok h => some h
  | .error _ => none

/-- One inner-loop iteration of `createChecksumRegistry` for a fixed file:
a present checksum is stored under the location key, an absent one leaves
the entry untouched. -/
def registryEntryStep (hash : String → String) (fs : FS) (file : String)
    (acc : List (String × String)) (loc : String) : List (String × String) :=
  match calculateChecksum hash fs (pjoin loc file) with
  | some c => objSet acc loc c
  | none => acc

/-- `registry.files[file]` as built by `createChecksumRegistry`: the fold of
the inner location loop, starting from no entry. -/
def registryEntry (hash : String → String) (fs : FS) (file : String) :
    List (String × String) :=
  persistenceLocations.foldl (registryEntryStep hash fs file) []

/-- One outer-loop iteration of `createChecksumRegistry`: the file key is
created only when at least one location produced a checksum. -/
def registryFilesStep (hash : String → String) (fs : FS)
    (acc : List (String × List (String × String))) (file : String) :
    List (String × List (String × String)) :=
  let e := registryEntry hash fs file
  if e.isEmpty then acc else objSet acc file e

/-- `registry.files` as built by `createChecksumRegistry`. -/
def registryFiles (hash : String → String) (fs : FS) :
    List (String × List (String × String)) :=
  pgCriticalFiles.foldl (registryFilesStep hash fs) []

/-! The watchdog (`HeadCrabWatchdog` inside
`PersistenceGuarantee.createWatchdog`). -/

/-- The `HeadCrabWatchdog` constructor's constants. -/
structure WatchdogConfig where
  checkInterval : Nat
  maxFailures : Nat
deriving DecidableEq, Repr

/-- `this.checkInterval = 30000; this.failureCount = 0; this.maxFailures = 3`. -/
def watchdogDefaults : WatchdogConfig :=
  { checkInterval := 30000, maxFailures := 3 }

/-- One iteration of the `setInterval` loop in `startWatching`: `isRunning`
is what `checkHeadCrab()` resolved to. Returns the new `failureCount` and
whether `restartHeadCrab()` (the recovery action) was executed this tick. -/
def watchdogTick (maxFailures failureCount : Nat) (isRunning : Bool) :
    Nat × Bool :=
  if isRunning then (0, false)
  else
    let fc := failureCount + 1
    if fc ≥ maxFailures then (0, true) else (fc, false)

/-- Run the watchdog over a sequence of probe results, counting recovery
executions. -/
def watchdogRun (maxFailures failureCount : Nat) :
    List Bool → Nat × Nat
  | [] => (failureCount, 0)
  | obs :: rest =>
    let t := watchdogTick maxFailures failureCount obs
    let r := watchdogRun maxFailures t.1 rest
    (r.1, (if t.2 then 1 else 0) + r.2)

/-! Concrete scenarios used to settle the spec's scenario claims. -/

/-- One full exit/restart cycle of a worker: the exit event handled by
`handleWorkerFailure`, then (when a restart was scheduled) the pending
`setTimeout` callback firing with a fresh pid. -/
def exitThenRestart (cfg : Config) (s : RMState) (pid newPid now : Nat) :
    RMState :=
  let r := handleWorkerFailure cfg s pid
  match r.2 with
  | some d => fireRestart r.1 d.2 newPid now
  | none => r.1

/-- The spec scenario's starting state: workers `worker-0`, `worker-1`,
`worker-2` spawned (restartCount 0 each), with pids 100, 101, 102. -/
def scenarioStart : RMState :=
  forkWorker (forkWorker (forkWorker initialState 100 "worker-0" 0)
    101 "worker-1" 0) 102 "worker-2" 0

/-- The scenario state after four complete exit/restart cycles of `worker-1`:
its current pid is 106 and its record carries `restartCount = 4`. -/
def scenarioAfter4 : RMState :=
  exitThenRestart (defaultConfig 8)
    (exitThenRestart (defaultConfig 8)
      (exitThenRestart (defaultConfig 8)
        (exitThenRestart (defaultConfig 8) scenarioStart 101 103 10)
        103 104 20)
      104 105 30)
    105 106 40

/-- The scenario state after five complete exit/restart cycles of `worker-1`:
its current pid is 107 and its record carries `restartCount = 5`. -/
def scenarioAfter5 : RMState :=
  exitThenRestart (defaultConfig 8) scenarioAfter4 106 107 50

/-- A filesystem on which every path reads fine at the primary but no
destination is writable: every backup site is unreachable for writing. -/
def allUnreachableFS : FS :=
  { read := fun _ => some "data", writable := fun _ => false }

/-- Whether a site-level log line is the failure notice. -/
def isFailureNotice : RepLog → Bool
  | .replicationFailed _ => true
  | .replicatedOk _ => false

/-- A state built by live operations: spawn three workers, run one health
tick (all three observed alive), then deliver exit events for all three
pids. The workers map empties while the three `alive` snapshots remain. -/
def allExitedState : RMState :=
  let s1 := (healthTick (defaultConfig 8) scenarioStart 50 999).1
  let s2 := (handleWorkerFailure (defaultConfig 8) s1 100).1
  let s3 := (handleWorkerFailure (defaultConfig 8) s2 101).1
  (handleWorkerFailure (defaultConfig 8) s3 102).1

/-! Association-list lemmas. -/

section ObjLemmas

variable {κ α : Type} [DecidableEq κ]

theorem objGet_append_left {m m2 : List (κ × α)} {k : κ} {x : α}
    (h : objGet m k = some x) : objGet (m ++ m2) k = some x := by
  induction m with
  | nil => simp [objGet] at h
  | cons p rest ih =>
    by_cases hp : p.1 = k
    · simp only [objGet, hp, if_pos] at h ⊢
      exact h
    · simp only [List.cons_append, objGet, hp, if_neg, if_false] at h ⊢
      exact ih h

theorem objGet_append_right {m m2 : List (κ × α)} {k : κ}
    (h : objGet m k = none) : objGet (m ++ m2) k = objGet m2 k := by
  induction m with
  | nil => simp
  | cons p rest ih =>
    by_cases hp : p.1 = k
    · rw [objGet, if_pos hp] at h
      cases h
    · simp only [List.cons_append, objGet, hp, if_neg, if_false] at h ⊢
      exact ih h

theorem objGet_map_update (m : List (κ × α)) (k k2 : κ) (v : α) :
    objGet (m.map (fun p => if p.1 = k then (k, v) else p)) k2 =
      if k2 = k then (objGet m k).map (fun _ => v) else objGet m k2 := by
  induction m with
  | nil => simp [objGet]
  | cons p rest ih =>
    by_cases hpk : p.1 = k
    · by_cases h2 : k2 = k
      · subst h2
        simp [objGet, hpk, ih]
      · have hk2 : ¬k = k2 := fun h => h2 h.symm
        simp [objGet, hpk, hk2, h2, ih]
    · by_cases hp2 : p.1 = k2
      · have h2 : ¬k2 = k := fun h => hpk (h ▸ hp2)
        simp [objGet, hpk, hp2, h2]
      · simp [objGet, hpk, hp2, ih]

theorem objGet_objSet (m : List (κ × α)) (k k2 : κ) (v : α) :
    objGet (objSet m k v) k2 = if k2 = k then some v else objGet m k2 := by
  unfold objSet objHas
  by_cases hh : (objGet m k).isSome
  · rw [if_pos hh, objGet_map_update]
    obtain ⟨x, hx⟩ := Option.isSome_iff_exists.mp hh
    simp [hx]
  · rw [if_neg hh]
    have hn : objGet m k = none := Option.not_isSome_iff_eq_none.mp hh
    by_cases h2 : k2 = k
    · subst h2
      rw [objGet_append_right hn]
      simp [objGet]
    · rcases hmk2 : objGet m k2 with _ | x
      · rw [objGet_append_right hmk2]
        have hk2 : ¬k = k2 := fun h => h2 h.symm
        simp [objGet, hk2, h2]
      · rw [objGet_append_left hmk2]
        simp [h2]

theorem objGet_objSet_self (m : List (κ × α)) (k : κ) (v : α) :
    objGet (objSet m k v) k = some v := by
  simp [objGet_objSet]

theorem objGet_objSet_isSome {m : List (κ × α)} {k2 : κ} (k : κ) (v : α)
    (h : (objGet m k2).isSome = true) :
    (objGet (objSet m k v) k2).isSome = true := by
  rw [objGet_objSet]
  split
  · rfl
  · exact h

theorem length_objSet_le (m : List (κ × α)) (k : κ) (v : α) :
    (objSet m k v).length ≤ m.length + 1 := by
  unfold objSet
  split
  · simp
  · simp

theorem objSet_of_fresh {m : List (κ × α)} {k : κ} (v : α)
    (h : objGet m k = none) : objSet m k v = m ++ [(k, v)] := by
  unfold objSet objHas
  simp [h]

theorem objGet_filterMap_of_not_mem {β : Type} (g : κ → Option β)
    (xs : List κ) (x : κ) (hx : x ∉ xs) :
    objGet (xs.filterMap (fun y => (g y).map (fun v => (y, v)))) x = none := by
  induction xs with
  | nil => simp [objGet]
  | cons y ys ih =>
    have hxy : ¬y = x := fun h => hx (h ▸ List.mem_cons_self y ys)
    have hx' : x ∉ ys := fun h => hx (List.mem_cons_of_mem y h)
    rcases hg : g y with _ | v
    · simp only [List.filterMap_cons, hg, Option.map_none']
      exact ih hx'
    · simp only [List.filterMap_cons, hg, Option.map_some']
      simp only [objGet, hxy, if_neg, if_false]
      exact ih hx'

theorem objGet_filterMap_of_nodup {β : Type} (g : κ → Option β)
    (xs : List κ) (hnd : xs.Nodup) (x : κ) (hx : x ∈ xs) :
    objGet (xs.filterMap (fun y => (g y).map (fun v => (y, v)))) x = g x := by
  induction xs with
  | nil => cases hx
  | cons y ys ih =>
    rcases List.nodup_cons.mp hnd with ⟨hyn, hnd'⟩
    by_cases hxy : x = y
    · subst hxy
      rcases hg : g x with _ | v
      · simp only [List.filterMap_cons, hg, Option.map_none']
        exact objGet_filterMap_of_not_mem g ys x hyn
      · simp only [List.filterMap_cons, hg, Option.map_some']
        simp [objGet]
    · have hx' : x ∈ ys := by
        rcases List.mem_cons.mp hx with h | h
        · exact absurd h hxy
        · exact h
      rcases hg : g y with _ | v
      · simp only [List.filterMap_cons, hg, Option.map_none']
        exact ih hnd' hx'
      · simp only [List.filterMap_cons, hg, Option.map_some']
        have hyx : ¬y = x := fun h => hxy h.symm
        simp only [objGet, hyx, if_neg, if_false]
        exact ih hnd' hx'

end ObjLemmas

theorem length_filterMap_pair {κ β : Type} (g : κ → Option β) (xs : List κ) :
    (xs.filterMap (fun y => (g y).map (fun v => (y, v)))).length =
      (xs.filter (fun y => (g y).isSome)).length := by
  induction xs with
  | nil => simp
  | cons y ys ih =>
    rcases hg : g y with _ | v
    · simp [List.filterMap_cons, hg, List.filter_cons, ih]
    · simp [List.filterMap_cons, hg, List.filter_cons, ih]

/-! Lemmas about the embedded operations. -/

theorem objGet_updateSnapshots_isSome (ws : List (Nat × WorkerInfo))
    (hc : List (String × Health)) (now : Nat) (k : String)
    (h : (objGet hc k).isSome = true) :
    (objGet (updateSnapshots ws hc now) k).isSome = true := by
  induction ws generalizing hc with
  | nil => simpa [updateSnapshots] using h
  | cons p rest ih =>
    simp only [updateSnapshots, List.foldl_cons]
    exact ih (objSet hc p.2.id (healthOf now p.1 p.2))
      (objGet_objSet_isSome p.2.id (healthOf now p.1 p.2) h)

theorem increaseRedundancy_length_le (cfg : Config) (s : RMState)
    (pid now : Nat) (h : s.workers.length ≤ cfg.maxWorkers) :
    (increaseRedundancy cfg s pid now).workers.length ≤ cfg.maxWorkers := by
  unfold increaseRedundancy
  split
  · next hlt =>
    have hle := length_objSet_le s.workers pid
      ({ id := "backup-" ++ toString now, restartCount := 0,
         startTime := now, isDead := false } : WorkerInfo)
    simp only [forkWorker]
    omega
  · exact h

theorem except_ok_bind {ε α β : Type} (a : α) (f : α → Except ε β) :
    (Except.ok a >>= f : Except ε β) = f a := rfl

theorem except_pure {ε α : Type} (a : α) :
    (pure a : Except ε α) = Except.ok a := rfl

theorem copyArtifactCaught_eq (fs : FS) (src dst : String) :
    copyArtifactCaught fs src dst = ((fs.read src).isSome && fs.writable dst) := by
  unfold copyArtifactCaught copyArtifact fsRead fsWrite
  rcases h : fs.read src with _ | d
  · rfl
  · rcases hw : fs.writable dst
    · rfl
    · rfl

theorem replicateSiteBody_eq (fs : FS) (primary site : String)
    (files : List String) :
    replicateSiteBody fs primary site files =
      Except.ok (files.filter
        (fun f => copyArtifactCaught fs (pjoin primary f) (pjoin site f))) := by
  unfold replicateSiteBody
  suffices h : ∀ (l : List String) (acc : List String),
      l.foldlM
        (fun acc f =>
          Except.ok
            (if copyArtifactCaught fs (pjoin primary f) (pjoin site f) then
              acc ++ [f]
            else acc))
        acc =
      (Except.ok (acc ++ l.filter
        (fun f => copyArtifactCaught fs (pjoin primary f) (pjoin site f))) :
        Except Unit (List String)) by
    simpa using h files []
  intro l
  induction l with
  | nil =>
    intro acc
    simp [List.foldlM_nil, except_pure]
  | cons x xs ih =>
    intro acc
    rcases hc : copyArtifactCaught fs (pjoin primary x) (pjoin site x) with _ | _
    · simp [List.foldlM_cons, hc, except_ok_bind, ih, List.filter_cons]
    · simp [List.foldlM_cons, hc, except_ok_bind, ih, List.filter_cons]

theorem replicateSite_eq (fs : FS) (primary site : String)
    (files : List String) :
    replicateSite fs primary site files =
      (RepLog.replicatedOk site,
       files.filter
         (fun f => copyArtifactCaught fs (pjoin primary f) (pjoin site f))) := by
  unfold replicateSite
  rw [replicateSiteBody_eq]

theorem foldl_pair_append {σ τ : Type} (g1 : String → τ) (g2 : String → List σ) :
    ∀ (bs : List String) (l0 : List τ) (w0 : List σ),
      bs.foldl (fun acc site => (acc.1 ++ [g1 site], acc.2 ++ g2 site)) (l0, w0) =
        (l0 ++ bs.map g1, w0 ++ (bs.map g2).flatten) := by
  intro bs
  induction bs with
  | nil => intro l0 w0; simp
  | cons b rest ih =>
    intro l0 w0
    simp only [List.foldl_cons, List.map_cons, List.flatten_cons]
    rw [ih]
    simp

theorem replicateData_eq (fs : FS) (primary : String)
    (backups files : List String) :
    replicateData fs (primary :: backups) files =
      (backups.map RepLog.replicatedOk,
       (backups.map (fun site =>
         (files.filter
           (fun f => copyArtifactCaught fs (pjoin primary f) (pjoin site f))).map
           (fun f => (site, f)))).flatten) := by
  have hstep :
      (fun (acc : List RepLog × List (String × String)) site =>
        let r := replicateSite fs primary site files
        (acc.1 ++ [r.1], acc.2 ++ r.2.map (fun f => (site, f)))) =
      fun (acc : List RepLog × List (String × String)) site =>
        (acc.1 ++ [RepLog.replicatedOk site],
         acc.2 ++ (files.filter
           (fun f => copyArtifactCaught fs (pjoin primary f) (pjoin site f))).map
           (fun f => (site, f))) := by
    funext acc site
    simp [replicateSite_eq]
  show (backups.foldl _ ([], [])) = _
  rw [hstep]
  exact (foldl_pair_append RepLog.replicatedOk
    (fun site => (files.filter
      (fun f => copyArtifactCaught fs (pjoin primary f) (pjoin site f))).map
      (fun f => (site, f))) backups [] []).trans (by simp)

theorem calculateChecksum_eq (hash : String → String) (fs : FS) (p : String) :
    calculateChecksum hash fs p = (fs.read p).map hash := by
  unfold calculateChecksum calculateChecksumBody fsRead
  rcases h : fs.read p with _ | d
  · rfl
  · rfl

theorem persistenceLocations_nodup : persistenceLocations.Nodup := by
  decide

theorem foldl_registryEntryStep (hash : String → String) (fs : FS)
    (file : String) :
    ∀ (locs : List String) (acc : List (String × String)), locs.Nodup →
      (∀ l ∈ locs, objGet acc l = none) →
      locs.foldl (registryEntryStep hash fs file) acc =
        acc ++ locs.filterMap
          (fun loc => (calculateChecksum hash fs (pjoin loc file)).map
            (fun c => (loc, c))) := by
  intro locs
  induction locs with
  | nil => intro acc _ _; simp
  | cons y ys ih =>
    intro acc hnd hfresh
    rcases List.nodup_cons.mp hnd with ⟨hyn, hnd'⟩
    rcases hg : calculateChecksum hash fs (pjoin y file) with _ | v
    · simp only [List.foldl_cons, registryEntryStep, hg]
      rw [ih acc hnd' (fun x hx => hfresh x (List.mem_cons_of_mem y hx))]
      simp [List.filterMap_cons, hg]
    · simp only [List.foldl_cons, registryEntryStep, hg]
      rw [objSet_of_fresh v (hfresh y (List.mem_cons_self y ys))]
      have hfresh' : ∀ x ∈ ys, objGet (acc ++ [(y, v)]) x = none := by
        intro x hx
        have hxy : ¬y = x := fun hEq => hyn (hEq ▸ hx)
        rw [objGet_append_right (hfresh x (List.mem_cons_of_mem y hx))]
        simp [objGet, hxy]
      rw [ih (acc ++ [(y, v)]) hnd' hfresh']
      simp [List.filterMap_cons, hg]

theorem registryEntry_eq (hash : String → String) (fs : FS) (file : String) :
    registryEntry hash fs file =
      persistenceLocations.filterMap
        (fun loc => (calculateChecksum hash fs (pjoin loc file)).map
          (fun c => (loc, c))) := by
  unfold registryEntry
  rw [foldl_registryEntryStep hash fs file persistenceLocations []
    persistenceLocations_nodup (fun x _ => rfl), List.nil_append]

theorem pgCriticalFiles_nodup : pgCriticalFiles.Nodup := by
  decide

theorem foldl_registryFilesStep (hash : String → String) (fs : FS) :
    ∀ (files : List String) (acc : List (String × List (String × String))),
      files.Nodup → (∀ f ∈ files, objGet acc f = none) →
      files.foldl (registryFilesStep hash fs) acc =
        acc ++ files.filterMap
          (fun f => (if (registryEntry hash fs f).isEmpty then none
            else some (registryEntry hash fs f)).map (fun v => (f, v))) := by
  intro files
  induction files with
  | nil => intro acc _ _; simp
  | cons y ys ih =>
    intro acc hnd hfresh
    rcases List.nodup_cons.mp hnd with ⟨hyn, hnd'⟩
    rcases he : (registryEntry hash fs y).isEmpty with _ | _
    · simp only [List.foldl_cons, registryFilesStep, he, Bool.false_eq_true,
        if_false]
      rw [objSet_of_fresh (registryEntry hash fs y)
        (hfresh y (List.mem_cons_self y ys))]
      have hfresh' : ∀ x ∈ ys,
          objGet (acc ++ [(y, registryEntry hash fs y)]) x = none := by
        intro x hx
        have hxy : ¬y = x := fun hEq => hyn (hEq ▸ hx)
        rw [objGet_append_right (hfresh x (List.mem_cons_of_mem y hx))]
        simp [objGet, hxy]
      rw [ih (acc ++ [(y, registryEntry hash fs y)]) hnd' hfresh']
      have he' : registryEntry hash fs y ≠ [] := by simpa using he
      simp [List.filterMap_cons, he']
    · simp only [List.foldl_cons, registryFilesStep, he, if_true]
      rw [ih acc hnd' (fun x hx => hfresh x (List.mem_cons_of_mem y hx))]
      have he' : registryEntry hash fs y = [] := by simpa using he
      simp [List.filterMap_cons, he']

theorem registryFiles_eq (hash : String → String) (fs : FS) :
    registryFiles hash fs =
      pgCriticalFiles.filterMap
        (fun f => (if (registryEntry hash fs f).isEmpty then none
          else some (registryEntry hash fs f)).map (fun v => (f, v))) := by
  unfold registryFiles
  rw [foldl_registryFilesStep hash fs pgCriticalFiles []
    pgCriticalFiles_nodup (fun x _ => rfl), List.nil_append]

theorem watchdogRun_replicate_false (maxF : Nat) (hm : 0 < maxF) :
    ∀ (n r : Nat), r < maxF →
      (watchdogRun maxF r (List.replicate n false)).2 = (r + n) / maxF := by
  intro n
  induction n with
  | zero =>
    intro r hr
    simp [watchdogRun, Nat.div_eq_of_lt hr]
  | succ n ih =>
    intro r hr
    rw [List.replicate_succ]
    by_cases h : maxF ≤ r + 1
    · have htick : watchdogTick maxF r false = (0, true) := by
        simp [watchdogTick, ge_iff_le, h]
      simp only [watchdogRun, htick]
      rw [ih 0 hm, if_true, Nat.zero_add]
      have harith : r + (n + 1) = n + maxF := by omega
      rw [harith, Nat.add_div_right _ hm]
      omega
    · have hlt : r + 1 < maxF := lt_of_not_ge h
      have htick : watchdogTick maxF r false = (r + 1, false) := by
        simp [watchdogTick, ge_iff_le, h]
      simp only [watchdogRun, htick]
      rw [ih (r + 1) hlt, if_neg (by simp), Nat.zero_add]
      congr 1
      omega

/-! Claim theorems. -/

/-- C1: for every worker-exit event handled by the supervisor (the pid is
found in the workers map): when the retiring record's restartCount has
reached `maxRestartAttempts` (5 in the default configuration), the worker's
id is appended to the failover queue and no restart is scheduled; otherwise
a restart is scheduled after the fixed `restartDelay` and the replacement
record spawned by the timer callback carries `restartCount + 1`, which is
never below the retiring record's count, so restartCount is monotonically
non-decreasing across consecutive respawns of the same logical worker. -/
theorem claim_C1_restart_policy (cfg : Config) (s : RMState) (pid : Nat)
    (info : WorkerInfo) (cpus : Nat)
    (hlook : objGet s.workers pid = some info) :
    (cfg.maxRestartAttempts ≤ info.restartCount →
      (handleWorkerFailure cfg s pid).1.failoverQueue =
        s.failoverQueue ++ [info.id] ∧
      (handleWorkerFailure cfg s pid).2 = none) ∧
    (info.restartCount < cfg.maxRestartAttempts →
      (handleWorkerFailure cfg s pid).2 = some (cfg.restartDelay, info) ∧
      (handleWorkerFailure cfg s pid).1.failoverQueue = s.failoverQueue ∧
      ∀ newPid now,
        objGet (fireRestart (handleWorkerFailure cfg s pid).1 info
            newPid now).workers newPid =
          some ({ id := info.id, restartCount := info.restartCount + 1,
                  startTime := now, isDead := false }) ∧
        info.restartCount ≤ info.restartCount + 1) ∧
    (defaultConfig cpus).maxRestartAttempts = 5 := by
  refine ⟨?_, ?_, rfl⟩
  · intro h
    simp only [handleWorkerFailure, hlook]
    rw [if_pos h]
    exact ⟨rfl, rfl⟩
  · intro h
    simp only [handleWorkerFailure, hlook]
    rw [if_neg (not_le.mpr h)]
    refine ⟨rfl, rfl, fun newPid now => ⟨?_, Nat.le_succ _⟩⟩
    simp only [fireRestart, forkWorker]
    exact objGet_objSet_self _ _ _

/-- C1 witness: a pool whose only worker has exhausted its budget retires
into the failover queue; one with budget left gets a restart scheduled. -/
theorem claim_C1_witness :
    (handleWorkerFailure (defaultConfig 8)
      ({ workers := [(1, ⟨"w1", 5, 0, false⟩)], healthChecks := [],
         failoverQueue := [] }) 1).1.failoverQueue = ["w1"] ∧
    (handleWorkerFailure (defaultConfig 8)
      ({ workers := [(2, ⟨"w2", 0, 0, false⟩)], healthChecks := [],
         failoverQueue := [] }) 2).2 = some (2000, ⟨"w2", 0, 0, false⟩) :=
  ⟨by
    have h := (claim_C1_restart_policy (defaultConfig 8)
      ({ workers := [(1, ⟨"w1", 5, 0, false⟩)], healthChecks := [],
         failoverQueue := [] }) 1 ⟨"w1", 5, 0, false⟩ 8 (by decide)).1
      (by decide)
    exact h.1,
   by
    have h := (claim_C1_restart_policy (defaultConfig 8)
      ({ workers := [(2, ⟨"w2", 0, 0, false⟩)], healthChecks := [],
         failoverQueue := [] }) 2 ⟨"w2", 0, 0, false⟩ 8 (by decide)).2.1
      (by decide)
    exact h.1⟩

/-- C2 counterexample: in the spec's scenario (workers `worker-0..2` spawned,
`worker-1` cycling through exits and restarts with maxRestartAttempts 5),
after `worker-1`'s 5th exit event the retiring record's restartCount is 4,
not 5: a 5th restart is scheduled and the failover queue stays empty, so the
claim's description of the 5th exit is false on the code. -/
theorem claim_C2_counterexample :
    (objGet scenarioAfter4.workers 106).map WorkerInfo.restartCount =
      some 4 ∧
    (handleWorkerFailure (defaultConfig 8) scenarioAfter4 106).2 =
      some (2000, ⟨"worker-1", 4, 40, false⟩) ∧
    (handleWorkerFailure (defaultConfig 8) scenarioAfter4 106).1.failoverQueue
      = [] := by
  decide

/-- C2 amended: in the spec's scenario it is the 6th exit event that retires
`worker-1`: the 5th exit schedules a restart whose replacement record
carries restartCount 5, and on the 6th exit the retiring record's
restartCount equals 5 = maxRestartAttempts, `worker-1` is appended to the
failover queue, and no further restart is scheduled. -/
theorem claim_C2_scenario :
    (objGet scenarioAfter5.workers 107).map WorkerInfo.restartCount =
      some 5 ∧
    (handleWorkerFailure (defaultConfig 8) scenarioAfter5 107).2 = none ∧
    (handleWorkerFailure (defaultConfig 8) scenarioAfter5 107).1.failoverQueue
      = ["worker-1"] := by
  decide

/-- C4: the redundancy classification is a pure function of the alive-worker
count with 0 ↦ CRITICAL, 1 ↦ LOW, 2 ↦ MEDIUM, and ≥ 3 ↦ HIGH, and
`calculateRedundancyLevel` is exactly that function applied to the alive
count aggregated over the healthChecks map. -/
theorem claim_C4_classification (n : Nat) (s : RMState) :
    (n = 0 → classifyAlive n = "CRITICAL") ∧
    (n = 1 → classifyAlive n = "LOW") ∧
    (n = 2 → classifyAlive n = "MEDIUM") ∧
    (3 ≤ n → classifyAlive n = "HIGH") ∧
    calculateRedundancyLevel s = classifyAlive (aliveCount s.healthChecks) := by
  refine ⟨?_, ?_, ?_, ?_, rfl⟩
  · rintro rfl
    rfl
  · rintro rfl
    rfl
  · rintro rfl
    rfl
  · intro h
    unfold classifyAlive
    rw [if_pos h]

/-- C4 witness: the classification at the four representative counts. -/
theorem claim_C4_witness :
    classifyAlive 0 = "CRITICAL" ∧ classifyAlive 1 = "LOW" ∧
    classifyAlive 2 = "MEDIUM" ∧ classifyAlive 3 = "HIGH" :=
  ⟨(claim_C4_classification 0 initialState).1 rfl,
   (claim_C4_classification 1 initialState).2.1 rfl,
   (claim_C4_classification 2 initialState).2.2.1 rfl,
   (claim_C4_classification 3 initialState).2.2.2.1 (by decide)⟩

/-- C3 counterexample: a pass on which every backup site is unreachable for
writing logs zero failure notices, not one per site: the per-artifact catch
swallows every error before the site-level catch can see one, so the pass
logs the success notice for both backup sites of the configuration. -/
theorem claim_C3_counterexample :
    ((replicateData allUnreachableFS (defaultConfig 8).replicationSites
        replicationCriticalFiles).1.filter isFailureNotice).length = 0 ∧
    (replicateData allUnreachableFS (defaultConfig 8).replicationSites
        replicationCriticalFiles).1 =
      [RepLog.replicatedOk "/tmp/head-crab-backup",
       RepLog.replicatedOk "~/.head-crab/backup"] := by
  decide

/-- C3 amended: a replication pass during which every backup site is
unreachable completes without raising an exception and logs exactly one
site-level notice per backup site; because per-artifact failures are caught
inside the site loop, that notice is always the success notice and the
failure notice is never emitted. Per-artifact read/write failures are
caught and skipped without aborting the remaining artifacts of that site or
the remaining sites: the writes performed are exactly those artifacts whose
primary read and backup write both succeed, at every backup site. -/
theorem claim_C3_pass (fs : FS) (primary : String)
    (backups files : List String) :
    (∀ site ∈ backups, ∃ copied,
      replicateSiteBody fs primary site files = Except.ok copied) ∧
    (replicateData fs (primary :: backups) files).1 =
      backups.map RepLog.replicatedOk ∧
    ((replicateData fs (primary :: backups) files).1.filter
      isFailureNotice).length = 0 ∧
    (replicateData fs (primary :: backups) files).2 =
      (backups.map (fun site =>
        (files.filter (fun f => (fs.read (pjoin primary f)).isSome &&
          fs.writable (pjoin site f))).map (fun f => (site, f)))).flatten := by
  refine ⟨?_, ?_, ?_, ?_⟩
  · intro site _
    exact ⟨_, replicateSiteBody_eq fs primary site files⟩
  · rw [replicateData_eq]
  · rw [replicateData_eq]
    simp [List.filter_map, isFailureNotice, Function.comp]
  · rw [replicateData_eq]
    simp only [copyArtifactCaught_eq]

/-- C3 witness: a site-level body returning normally on an unreachable
backup site. -/
theorem claim_C3_pass_witness :
    ∃ copied, replicateSiteBody allUnreachableFS "/primary" "/backup"
      ["file.js"] = Except.ok copied :=
  (claim_C3_pass allUnreachableFS "/primary" ["/backup"] ["file.js"]).1
    "/backup" (List.mem_cons_self _ _)

/-- C5: increaseRedundancy spawns exactly one worker with the fresh
timestamp-derived id when the pool is below maxWorkers, is a no-op (the
state is unchanged) when it is not, and any sequence of increaseRedundancy
calls keeps a pool that starts at or below maxWorkers at or below
maxWorkers; the default maxWorkers is min(host cpus, 8). -/
theorem claim_C5_increaseRedundancy (cfg : Config) (s : RMState)
    (pid now cpus : Nat) (calls : List (Nat × Nat)) :
    (s.workers.length < cfg.maxWorkers → objGet s.workers pid = none →
      (increaseRedundancy cfg s pid now).workers.length =
        s.workers.length + 1 ∧
      objGet (increaseRedundancy cfg s pid now).workers pid =
        some ⟨"backup-" ++ toString now, 0, now, false⟩) ∧
    (cfg.maxWorkers ≤ s.workers.length →
      increaseRedundancy cfg s pid now = s) ∧
    (s.workers.length ≤ cfg.maxWorkers →
      (calls.foldl (fun st pr => increaseRedundancy cfg st pr.1 pr.2)
        s).workers.length ≤ cfg.maxWorkers) ∧
    (defaultConfig cpus).maxWorkers = min cpus 8 := by
  refine ⟨?_, ?_, ?_, rfl⟩
  · intro hlt hfresh
    unfold increaseRedundancy
    rw [if_pos hlt]
    simp only [forkWorker]
    rw [objSet_of_fresh _ hfresh]
    constructor
    · simp
    · show objGet (s.workers ++ [(pid, _)]) pid = _
      rw [objGet_append_right hfresh]
      simp [objGet]
  · intro hge
    unfold increaseRedundancy
    rw [if_neg (not_lt.mpr hge)]
  · have aux : ∀ (cs : List (Nat × Nat)) (st : RMState),
        st.workers.length ≤ cfg.maxWorkers →
        (cs.foldl (fun st pr => increaseRedundancy cfg st pr.1 pr.2)
          st).workers.length ≤ cfg.maxWorkers := by
      intro cs
      induction cs with
      | nil => intro st hst; exact hst
      | cons c rest ih =>
        intro st hst
        simp only [List.foldl_cons]
        exact ih _ (increaseRedundancy_length_le cfg st c.1 c.2 hst)
    exact aux calls s

/-- C5 witness: one spawn from the empty pool, and twenty calls never
pushing the pool beyond the default cap. -/
theorem claim_C5_witness :
    (increaseRedundancy (defaultConfig 8) initialState 1 7).workers.length =
      initialState.workers.length + 1 ∧
    ((List.replicate 20 ((1 : Nat), (7 : Nat))).foldl
      (fun st pr => increaseRedundancy (defaultConfig 8) st pr.1 pr.2)
      initialState).workers.length ≤ (defaultConfig 8).maxWorkers :=
  ⟨((claim_C5_increaseRedundancy (defaultConfig 8) initialState 1 7 8
      []).1 (by decide) (by decide)).1,
   (claim_C5_increaseRedundancy (defaultConfig 8) initialState 1 7 8
      (List.replicate 20 (1, 7))).2.2.1 (by decide)⟩

/-- C6: a probe observing the service alive resets failureCount to 0; a
dead observation increments it unless the incremented count reaches
maxFailures, in which case the recovery action runs on that tick and
failureCount is 0 immediately afterwards, independent of the recovery
outcome (the tick never consults it); starting from failureCount 0, n
consecutive dead observations execute the recovery exactly n / maxFailures
times — once per maxFailures of them; the constructor's maxFailures is 3. -/
theorem claim_C6_watchdog (maxF fc n : Nat) :
    watchdogTick maxF fc true = (0, false) ∧
    ((watchdogTick maxF fc false).2 = false →
      (watchdogTick maxF fc false).1 = fc + 1) ∧
    ((watchdogTick maxF fc false).2 = true →
      (watchdogTick maxF fc false).1 = 0) ∧
    (0 < maxF →
      (watchdogRun maxF 0 (List.replicate n false)).2 = n / maxF) ∧
    watchdogDefaults.maxFailures = 3 := by
  refine ⟨rfl, ?_, ?_, ?_, rfl⟩
  · intro h
    by_cases h2 : maxF ≤ fc + 1
    · have ht : watchdogTick maxF fc false = (0, true) := by
        simp [watchdogTick, ge_iff_le, h2]
      rw [ht] at h
      cases h
    · have ht : watchdogTick maxF fc false = (fc + 1, false) := by
        simp [watchdogTick, ge_iff_le, h2]
      rw [ht]
  · intro h
    by_cases h2 : maxF ≤ fc + 1
    · have ht : watchdogTick maxF fc false = (0, true) := by
        simp [watchdogTick, ge_iff_le, h2]
      rw [ht]
    · have ht : watchdogTick maxF fc false = (fc + 1, false) := by
        simp [watchdogTick, ge_iff_le, h2]
      rw [ht] at h
      cases h
  · intro hm
    have h := watchdogRun_replicate_false maxF hm n 0 hm
    simpa using h

/-- C6 witness: with the default threshold 3, a second consecutive failure
only counts up, the third resets to 0, and six consecutive failures recover
exactly twice. -/
theorem claim_C6_witness :
    (watchdogTick 3 1 false).1 = 1 + 1 ∧
    (watchdogTick 3 2 false).1 = 0 ∧
    (watchdogRun 3 0 (List.replicate 6 false)).2 = 6 / 3 :=
  ⟨(claim_C6_watchdog 3 1 0).2.1 (by decide),
   (claim_C6_watchdog 3 2 0).2.2.1 (by decide),
   (claim_C6_watchdog 3 0 6).2.2.2.1 (by decide)⟩

/-- C7: after the registry is built, an artifact's entry carries exactly one
site key per location at which the artifact is readable, each mapped to the
content hash recomputed from that location's file; an unreadable location
contributes no key rather than an error entry; the per-file checksum
computation is total, returning the hash or the absent sentinel; and in the
registry's files map, an artifact of the manifest is keyed exactly when at
least one location yielded a checksum, with its full entry as value. -/
theorem claim_C7_registry (hash : String → String) (fs : FS)
    (file : String) :
    (registryEntry hash fs file).length =
      (persistenceLocations.filter
        (fun loc => (fs.read (pjoin loc file)).isSome)).length ∧
    (∀ loc ∈ persistenceLocations,
      objGet (registryEntry hash fs file) loc =
        (fs.read (pjoin loc file)).map hash) ∧
    (∀ p, calculateChecksum hash fs p = (fs.read p).map hash) ∧
    (∀ f ∈ pgCriticalFiles,
      objGet (registryFiles hash fs) f =
        if (registryEntry hash fs f).isEmpty then none
        else some (registryEntry hash fs f)) := by
  refine ⟨?_, ?_, calculateChecksum_eq hash fs, ?_⟩
  · rw [registryEntry_eq, length_filterMap_pair]
    have hpred : (fun y => (calculateChecksum hash fs (pjoin y file)).isSome)
        = fun loc => (fs.read (pjoin loc file)).isSome := by
      funext loc
      rw [calculateChecksum_eq]
      rcases fs.read (pjoin loc file) with _ | d
      · rfl
      · rfl
    rw [hpred]
  · intro loc hloc
    rw [registryEntry_eq]
    have h := objGet_filterMap_of_nodup
      (fun loc => calculateChecksum hash fs (pjoin loc file))
      persistenceLocations persistenceLocations_nodup loc hloc
    rw [h]
    exact calculateChecksum_eq hash fs _
  · intro f hf
    rw [registryFiles_eq]
    exact objGet_filterMap_of_nodup
      (fun f => if (registryEntry hash fs f).isEmpty then none
        else some (registryEntry hash fs f))
      pgCriticalFiles pgCriticalFiles_nodup f hf

/-- C7 witness: with an everywhere-readable filesystem, the entry for the
boot script has one key per location, mapped to the hash of the content. -/
theorem claim_C7_witness :
    (registryEntry (fun s => s ++ "!") allUnreachableFS
      "head-crab-boot.js").length = persistenceLocations.length ∧
    objGet (registryEntry (fun s => s ++ "!") allUnreachableFS
      "head-crab-boot.js") "/opt/head-crab" = some "data!" := by
  constructor
  · have h := (claim_C7_registry (fun s => s ++ "!") allUnreachableFS
      "head-crab-boot.js").1
    rw [h]
    decide
  · have h := (claim_C7_registry (fun s => s ++ "!") allUnreachableFS
      "head-crab-boot.js").2.1 "/opt/head-crab" (by decide)
    rw [h]
    rfl

/-- C8: on a health tick whose aggregated aliveCount — computed over the
snapshot map refreshed by that same tick — is strictly below 2, exactly one
increaseRedundancy request is issued and the resulting state is that single
call's result; on a tick where it is 2 or more, no request is issued and
only the snapshot map changes. -/
theorem claim_C8_healthTick (cfg : Config) (s : RMState) (now pid : Nat) :
    (aliveCount (updateSnapshots s.workers s.healthChecks now) < 2 →
      (healthTick cfg s now pid).2 = 1 ∧
      (healthTick cfg s now pid).1 =
        increaseRedundancy cfg
          ({ s with healthChecks :=
              updateSnapshots s.workers s.healthChecks now }) pid now) ∧
    (2 ≤ aliveCount (updateSnapshots s.workers s.healthChecks now) →
      (healthTick cfg s now pid).2 = 0 ∧
      (healthTick cfg s now pid).1 =
        { s with healthChecks :=
            updateSnapshots s.workers s.healthChecks now }) := by
  constructor
  · intro h
    simp only [healthTick]
    rw [if_pos h]
    exact ⟨rfl, rfl⟩
  · intro h
    simp only [healthTick]
    rw [if_neg (not_lt.mpr h)]
    exact ⟨rfl, rfl⟩

/-- C8 witness: a tick that sees one alive snapshot issues exactly one
increaseRedundancy request. -/
theorem claim_C8_witness :
    (healthTick (defaultConfig 8)
      ({ workers := [], healthChecks := [("w", ⟨1, "w", 5, 0, "alive"⟩)],
         failoverQueue := [] }) 10 2).2 = 1 :=
  ((claim_C8_healthTick (defaultConfig 8)
    ({ workers := [], healthChecks := [("w", ⟨1, "w", 5, 0, "alive"⟩)],
       failoverQueue := [] }) 10 2).1 (by decide)).1

/-- C9: when the active worker pool is empty, the status query's
averageUptime is the JavaScript evaluation of 0 / 0 / 1000 and is NaN: the
operation has no guard for the empty pool. -/
theorem claim_C9_averageUptime_nan (cfg : Config) (s : RMState) (now : Nat)
    (h : s.workers = []) :
    (getRedundancyStatus cfg s now).averageUptime = JSNum.nan := by
  simp only [getRedundancyStatus, h]
  simp [jsDiv]

/-- C9 witness: the freshly constructed manager reports averageUptime NaN. -/
theorem claim_C9_witness :
    (getRedundancyStatus (defaultConfig 8) initialState 0).averageUptime =
      JSNum.nan :=
  claim_C9_averageUptime_nan (defaultConfig 8) initialState 0 rfl

/-- C10: health snapshots are never removed — a worker-exit event leaves
the healthChecks map untouched and a health tick only overwrites or inserts
snapshot keys, never deletes one — so alive counting ranges over every
worker id ever observed; concretely, after three spawns, one health tick,
and exit events for all three pids, the status query reports aliveWorkers 3
against totalWorkers 0. -/
theorem claim_C10_snapshots (cfg : Config) (s : RMState) (pid now : Nat)
    (k : String) :
    (handleWorkerFailure cfg s pid).1.healthChecks = s.healthChecks ∧
    ((objGet s.healthChecks k).isSome = true →
      (objGet (updateSnapshots s.workers s.healthChecks now) k).isSome =
        true) ∧
    (getRedundancyStatus (defaultConfig 8) allExitedState 60).aliveWorkers
      = 3 ∧
    (getRedundancyStatus (defaultConfig 8) allExitedState 60).totalWorkers
      = 0 := by
  refine ⟨?_, objGet_updateSnapshots_isSome s.workers s.healthChecks now k,
    ?_, ?_⟩
  · rcases hg : objGet s.workers pid with _ | info
    · simp [handleWorkerFailure, hg]
    · simp only [handleWorkerFailure, hg]
      split
      · rfl
      · rfl
  · decide
  · decide

/-- C10 witness: the snapshot of `worker-0` survives a later tick taken
after all workers exited. -/
theorem claim_C10_witness :
    (objGet (updateSnapshots allExitedState.workers
      allExitedState.healthChecks 70) "worker-0").isSome = true :=
  (claim_C10_snapshots (defaultConfig 8) allExitedState 0 70
    "worker-0").2.1 (by decide)

end HeadCrab
